import Mathlib

/-!
Verification development for the chronograph repository
(src/chronograph/chronograph.py): a stopwatch object recording labeled
splits, a global name-to-Chronograph registry, and a timing decorator.

The embedding is shallow: timestamps are integers (a deterministic clock
value is passed to every operation that reads the clock in the source),
the message sink is modelled by the list of strings an operation emits,
and Python exceptions are modelled by an explicit result type.
-/

namespace Chrono

/-- One timed interval: the dict with keys start, stop (optional), label
built by Chronograph.start and closed by Chronograph.stop. -/
structure SplitRecord where
  start : Int
  stop : Option Int
  label : String
  deriving DecidableEq, Repr

/-- Python exceptions that the source can raise: ChronographError, and the
IndexError produced by indexing an empty list. -/
inductive PyExc where
  | chronographError (msg : String)
  | indexError
  deriving DecidableEq, Repr

/-- Result of a Python call: a returned value or a raised exception. -/
inductive PyResult (A : Type) where
  | ok (a : A)
  | exc (e : PyExc)
  deriving DecidableEq, Repr

/-- State of a Chronograph object (fields set in Chronograph.__init__;
the sink print_fnc is modelled by the message lists operations return). -/
structure Chronograph where
  name : Option String
  header : String
  timing_data : List SplitRecord
  verbosity : Int
  throw_exceptions : Bool
  deriving DecidableEq, Repr

/-- Result of one method call on a Chronograph: the updated object, the
returned value or exception, and the strings written to the sink. -/
structure OpResult where
  cg : Chronograph
  ret : PyResult Bool
  msgs : List String
  deriving DecidableEq, Repr

/-- The test of the Python truthiness conditions used by start and stop:
true when timing_data is empty or its last record has a stop key. -/
def isIdle (l : List SplitRecord) : Bool :=
  match l.getLast? with
  | none => true
  | some t => t.stop.isSome

/-- Python: label = label if label else str(len(self.timing_data)+1).
An absent or empty label defaults to the 1-based ordinal as a string. -/
def resolveLabel (label : Option String) (count : Nat) : String :=
  match label with
  | some s => if s.isEmpty then toString (count + 1) else s
  | none => toString (count + 1)

def startWarnMsg (header : String) : String :=
  header ++ ": Warning: Cannot start Chronograph while in current state! Stop or reset chronograph before starting.\n"

def stopWarnMsg (header : String) : String :=
  header ++ ": Warning: Cannot stop Chronograph while in current state! Start chronograph first.\n"

def startedMsg (header lab : String) (t : Int) : String :=
  header ++ ": Split (" ++ lab ++ ") started at: " ++ toString t ++ "\n"

def stoppedMsg (header : String) (t : Int) : String :=
  header ++ ": stopped at: " ++ toString t ++ "\n"

def summaryMsg (header : String) (total : Int) (lab : String) (lastT : Int) : String :=
  header ++ ": Total elapsed time: " ++ toString total ++ " s. Last split (" ++ lab ++
    ") time: " ++ toString lastT ++ " s.\n"

/-- get_split_time(split_data, allow_still_running): stop - start when a
stop key exists, now - start when still running is allowed, otherwise a
ChronographError. -/
def get_split_time (split_data : SplitRecord) (now : Int) (allow_still_running : Bool) :
    PyResult Int :=
  match split_data.stop with
  | some stop_time => PyResult.ok (stop_time - split_data.start)
  | none =>
    if allow_still_running then PyResult.ok (now - split_data.start)
    else PyResult.exc (PyExc.chronographError
      "Cannot get split data; make sure \x27stop\x27 is defined or use \x27allow_still_running\x27 option.")

/-- total_elapsed_time: loop accumulating (stop or now) - start over all
timing_data records. -/
def total_elapsed_time (cg : Chronograph) (now : Int) : Int :=
  cg.timing_data.foldl (fun elapsed t => elapsed + ((t.stop.getD now) - t.start)) 0

/-- last_split: the most recent record having a stop key (the source scans
timing_data in reverse and returns False when none is found). -/
def last_split (cg : Chronograph) : Option SplitRecord :=
  cg.timing_data.reverse.find? (fun t => t.stop.isSome)

/-- Chronograph.start(label=None): when Idle, appends a fresh record with
the resolved label and emits a verbose message at verbosity at least 2;
when Running, warns and returns False, or raises under throw_exceptions. -/
def Chronograph.start (cg : Chronograph) (now : Int) (label : Option String) : OpResult :=
  if isIdle cg.timing_data then
    let lab := resolveLabel label cg.timing_data.length
    let cg' : Chronograph := { cg with timing_data := cg.timing_data ++ [⟨now, none, lab⟩] }
    let msgs := if cg.verbosity ≥ 2 then [startedMsg cg.header lab now] else []
    ⟨cg', PyResult.ok true, msgs⟩
  else
    if cg.throw_exceptions then
      ⟨cg, PyResult.exc (PyExc.chronographError (startWarnMsg cg.header)), []⟩
    else
      ⟨cg, PyResult.ok false, [startWarnMsg cg.header]⟩

/-- Chronograph.stop(): when the last record is open, sets its stop time,
emits messages per verbosity, and returns True; otherwise warns and
returns False (never raising, regardless of throw_exceptions). -/
def Chronograph.stop (cg : Chronograph) (now : Int) : OpResult :=
  match cg.timing_data.getLast? with
  | some t =>
    if t.stop.isSome then
      ⟨cg, PyResult.ok false, [stopWarnMsg cg.header]⟩
    else
      let t' : SplitRecord := { t with stop := some now }
      let cg' : Chronograph := { cg with timing_data := cg.timing_data.dropLast ++ [t'] }
      let verboseMsgs := if cg.verbosity ≥ 2 then [stoppedMsg cg.header t'.start] else []
      let summaryMsgs :=
        if cg.verbosity ≥ 1 then
          match last_split cg' with
          | some ls =>
            match get_split_time ls now false with
            | PyResult.ok d => [summaryMsg cg.header (total_elapsed_time cg' now) ls.label d]
            | PyResult.exc _ => []
          | none => []
        else []
      ⟨cg', PyResult.ok true, verboseMsgs ++ summaryMsgs⟩
  | none => ⟨cg, PyResult.ok false, [stopWarnMsg cg.header]⟩

/-- Chronograph.reset(): reassigns timing_data to the empty list, then at
verbosity at least 2 formats timing_data[-1] of the freshly cleared list
(an IndexError in the source) and otherwise falls through to return False. -/
def Chronograph.reset (cg : Chronograph) : OpResult :=
  let cg' : Chronograph := { cg with timing_data := ([] : List SplitRecord) }
  if cg.verbosity ≥ 2 then
    ⟨cg', PyResult.exc PyExc.indexError, []⟩
  else
    ⟨cg', PyResult.ok false, []⟩

/-- Chronograph.split(label=None): success = stop(); if success then
success = start(label); return success. -/
def Chronograph.split (cg : Chronograph) (nowStop nowStart : Int) (label : Option String) :
    OpResult :=
  let r := cg.stop nowStop
  match r.ret with
  | PyResult.ok true =>
    let r2 := r.cg.start nowStart label
    ⟨r2.cg, r2.ret, r.msgs ++ r2.msgs⟩
  | _ => r

/-- Constructor options of Chronograph.__init__ that the claims exercise
(logger and log_lvl are the abstract sink, modelled by message lists). -/
structure ChronoOptions where
  verbosity : Int := 0
  start_timing : Bool := false
  throw_exceptions : Bool := false
  deriving DecidableEq, Repr

def defaultOpts : ChronoOptions := {}

/-- The object state right after Chronograph.__init__ sets its fields
(before any start_timing call); an absent or empty name yields the
Unnamed Chronograph header. -/
def mkChronograph (name : Option String) (opts : ChronoOptions) : Chronograph :=
  { name := name
    header :=
      match name with
      | some s => if s.isEmpty then "Unnamed Chronograph" else s
      | none => "Unnamed Chronograph"
    timing_data := []
    verbosity := opts.verbosity
    throw_exceptions := opts.throw_exceptions }

/-- Chronograph.__init__ including the optional start_timing call to
start(); returns the constructed object and the messages it printed. -/
def createChronograph (name : Option String) (opts : ChronoOptions) (now : Int) :
    Chronograph × List String :=
  let cg := mkChronograph name opts
  if opts.start_timing then
    let r := cg.start now none
    (r.cg, r.msgs)
  else (cg, [])

/-- The global all_chronographs dict, as an insertion-ordered association
list. -/
abbrev Registry := List (String × Chronograph)

/-- Dictionary lookup in all_chronographs. -/
def regFind (reg : Registry) (name : String) : Option Chronograph :=
  match reg with
  | [] => none
  | (k, v) :: rest => if k = name then some v else regFind rest name

/-- get_chronograph(name, **kwargs): construct and insert only when the
name is absent, then return the mapped Chronograph. -/
def get_chronograph (reg : Registry) (name : String) (opts : ChronoOptions) (now : Int) :
    Chronograph × Registry :=
  match regFind reg name with
  | some cg => (cg, reg)
  | none =>
    let cg := (createChronograph (some name) opts now).1
    (cg, reg ++ [(name, cg)])

/-- Python mutates the registry-held object in place; in the value model
the entry for the name is replaced by the updated object. -/
def updateRegistry (reg : Registry) (name : String) (cg : Chronograph) : Registry :=
  reg.map (fun p => if p.1 = name then (p.1, cg) else p)

/-- Behaviour of one invocation of the wrapped callable: it returns a
value or raises its own exception. -/
inductive CallOutcome (A : Type) where
  | ok (a : A)
  | exc
  deriving DecidableEq, Repr

/-- What the caller of the decorated function observes: the return value,
the wrapped callable exception, or a ChronographError from start(). -/
inductive CallResult (A : Type) where
  | ok (a : A)
  | funcExc
  | chronoExc (e : PyExc)
  deriving DecidableEq, Repr

/-- One invocation of the _decorator closure built by add_chronograph:
resolve the Chronograph by name (kwargs name or the function name), call
start(), invoke the callable, and on a normal return call stop() and pass
the value through; the source has no try/finally, so a raising callable
skips the stop() line. -/
def decorated_call {A : Type} (reg : Registry) (funcName : String) (kwName : Option String)
    (opts : ChronoOptions) (tResolve tStart tStop : Int) (outcome : CallOutcome A) :
    Registry × CallResult A :=
  let name := kwName.getD funcName
  let p := get_chronograph reg name opts tResolve
  let r1 := p.1.start tStart none
  match r1.ret with
  | PyResult.exc e => (updateRegistry p.2 name r1.cg, CallResult.chronoExc e)
  | PyResult.ok _ =>
    match outcome with
    | CallOutcome.exc => (updateRegistry p.2 name r1.cg, CallResult.funcExc)
    | CallOutcome.ok a =>
      let r2 := r1.cg.stop tStop
      (updateRegistry p.2 name r2.cg, CallResult.ok a)

/-- The four mutating operations, with the clock values each reads. -/
inductive Op where
  | start (now : Int) (label : Option String)
  | stop (now : Int)
  | split (nowStop nowStart : Int) (label : Option String)
  | reset
  deriving DecidableEq, Repr

/-- The state reached after one operation (messages and results dropped). -/
def applyOp (cg : Chronograph) (op : Op) : Chronograph :=
  match op with
  | Op.start now label => (cg.start now label).cg
  | Op.stop now => (cg.stop now).cg
  | Op.split n1 n2 label => (cg.split n1 n2 label).cg
  | Op.reset => cg.reset.cg

/-- The state reached after a sequence of operations. -/
def runOps (cg : Chronograph) (ops : List Op) : Chronograph :=
  ops.foldl applyOp cg

/-- The splits invariant: every record before the last one is closed. -/
def wellFormed (l : List SplitRecord) : Bool :=
  l.dropLast.all (fun t => t.stop.isSome)

/-! ### Basic lemmas about the state test and the operations -/

theorem isIdle_concat (L : List SplitRecord) (t : SplitRecord) :
    isIdle (L ++ [t]) = t.stop.isSome := by
  simp [isIdle, List.getLast?_concat]

theorem isIdle_false_elim (l : List SplitRecord) (h : isIdle l = false) :
    ∃ L t, l = L ++ [t] ∧ t.stop = none := by
  rcases l.eq_nil_or_concat' with rfl | ⟨L, t, rfl⟩
  · simp [isIdle] at h
  · refine ⟨L, t, rfl, ?_⟩
    rw [isIdle_concat] at h
    cases hs : t.stop with
    | none => rfl
    | some s => rw [hs] at h; simp at h

theorem start_of_idle (cg : Chronograph) (now : Int) (label : Option String)
    (h : isIdle cg.timing_data = true) :
    cg.start now label =
      ⟨{ cg with timing_data :=
           cg.timing_data ++ [⟨now, none, resolveLabel label cg.timing_data.length⟩] },
       PyResult.ok true,
       if cg.verbosity ≥ 2 then
         [startedMsg cg.header (resolveLabel label cg.timing_data.length) now]
       else []⟩ := by
  simp [Chronograph.start, h]

theorem start_of_running_cg (cg : Chronograph) (now : Int) (label : Option String)
    (h : isIdle cg.timing_data = false) :
    (cg.start now label).cg = cg := by
  simp only [Chronograph.start, h, Bool.false_eq_true, if_false]
  split <;> rfl

theorem start_ret_ok_true_imp (cg : Chronograph) (now : Int) (label : Option String)
    (h : (cg.start now label).ret = PyResult.ok true) :
    isIdle cg.timing_data = true := by
  by_cases hi : isIdle cg.timing_data = true
  · exact hi
  · have hi' : isIdle cg.timing_data = false := by simpa using hi
    simp only [Chronograph.start, hi', Bool.false_eq_true, if_false] at h
    revert h
    split <;> simp

theorem stop_of_idle (cg : Chronograph) (now : Int)
    (h : isIdle cg.timing_data = true) :
    cg.stop now = ⟨cg, PyResult.ok false, [stopWarnMsg cg.header]⟩ := by
  cases hl : cg.timing_data.getLast? with
  | none => simp [Chronograph.stop, hl]
  | some t =>
    have ht : t.stop.isSome = true := by
      unfold isIdle at h
      rw [hl] at h
      exact h
    simp [Chronograph.stop, hl, ht]

theorem stop_of_concat (cg : Chronograph) (now : Int) (L : List SplitRecord)
    (t : SplitRecord) (hd : cg.timing_data = L ++ [t]) (ht : t.stop = none) :
    (cg.stop now).cg = { cg with timing_data := L ++ [{ t with stop := some now }] }
    ∧ (cg.stop now).ret = PyResult.ok true := by
  constructor <;>
    simp [Chronograph.stop, hd, List.getLast?_concat, ht, List.dropLast_concat]

theorem stop_never_raises (cg : Chronograph) (now : Int) (e : PyExc) :
    (cg.stop now).ret ≠ PyResult.exc e := by
  by_cases hi : isIdle cg.timing_data = true
  · rw [stop_of_idle cg now hi]
    simp
  · obtain ⟨L, t, hd, ht⟩ := isIdle_false_elim _ (by simpa using hi)
    rw [(stop_of_concat cg now L t hd ht).2]
    simp

theorem stop_fail_cg (cg : Chronograph) (now : Int)
    (h : (cg.stop now).ret = PyResult.ok false) :
    (cg.stop now).cg = cg := by
  by_cases hi : isIdle cg.timing_data = true
  · rw [stop_of_idle cg now hi]
  · obtain ⟨L, t, hd, ht⟩ := isIdle_false_elim _ (by simpa using hi)
    rw [(stop_of_concat cg now L t hd ht).2] at h
    simp at h

theorem stop_of_running_ret (cg : Chronograph) (now : Int)
    (h : isIdle cg.timing_data = false) :
    (cg.stop now).ret = PyResult.ok true := by
  obtain ⟨L, t, hd, ht⟩ := isIdle_false_elim _ h
  exact (stop_of_concat cg now L t hd ht).2

theorem isIdle_after_stop (cg : Chronograph) (now : Int)
    (h : isIdle cg.timing_data = false) :
    isIdle (cg.stop now).cg.timing_data = true := by
  obtain ⟨L, t, hd, ht⟩ := isIdle_false_elim _ h
  rw [(stop_of_concat cg now L t hd ht).1]
  simp [isIdle_concat]

theorem reset_cg (cg : Chronograph) :
    cg.reset.cg = { cg with timing_data := ([] : List SplitRecord) } := by
  simp only [Chronograph.reset]
  split <;> rfl

/-! ### Preservation of the splits invariant -/

theorem wellFormed_concat (L : List SplitRecord) (t : SplitRecord) :
    wellFormed (L ++ [t]) = L.all (fun r => r.stop.isSome) := by
  simp [wellFormed, List.dropLast_concat]

theorem all_of_wf_idle (l : List SplitRecord) (h1 : wellFormed l = true)
    (h2 : isIdle l = true) : l.all (fun t => t.stop.isSome) = true := by
  rcases l.eq_nil_or_concat' with rfl | ⟨L, t, rfl⟩
  · simp
  · rw [wellFormed_concat] at h1
    rw [isIdle_concat] at h2
    simp [h1, h2]

theorem start_preserves_wf (cg : Chronograph) (now : Int) (label : Option String)
    (h : wellFormed cg.timing_data = true) :
    wellFormed ((cg.start now label).cg).timing_data = true := by
  by_cases hi : isIdle cg.timing_data = true
  · rw [start_of_idle cg now label hi]
    rw [show (⟨{ cg with timing_data :=
        cg.timing_data ++ [⟨now, none, resolveLabel label cg.timing_data.length⟩] },
        PyResult.ok true, _⟩ : OpResult).cg.timing_data =
        cg.timing_data ++ [⟨now, none, resolveLabel label cg.timing_data.length⟩] from rfl]
    rw [wellFormed_concat]
    exact all_of_wf_idle _ h hi
  · rw [start_of_running_cg cg now label (by simpa using hi)]
    exact h

theorem stop_preserves_wf (cg : Chronograph) (now : Int)
    (h : wellFormed cg.timing_data = true) :
    wellFormed ((cg.stop now).cg).timing_data = true := by
  by_cases hi : isIdle cg.timing_data = true
  · rw [stop_of_idle cg now hi]
    exact h
  · obtain ⟨L, t, hd, ht⟩ := isIdle_false_elim _ (by simpa using hi)
    rw [(stop_of_concat cg now L t hd ht).1]
    rw [hd, wellFormed_concat] at h
    simpa [wellFormed_concat] using h

theorem split_preserves_wf (cg : Chronograph) (n1 n2 : Int) (label : Option String)
    (h : wellFormed cg.timing_data = true) :
    wellFormed ((cg.split n1 n2 label).cg).timing_data = true := by
  have hstop := stop_preserves_wf cg n1 h
  simp only [Chronograph.split]
  split
  · exact start_preserves_wf _ _ _ hstop
  · exact hstop

theorem reset_preserves_wf (cg : Chronograph) :
    wellFormed (cg.reset.cg).timing_data = true := by
  rw [reset_cg]
  rfl

theorem applyOp_preserves_wf (cg : Chronograph) (op : Op)
    (h : wellFormed cg.timing_data = true) :
    wellFormed ((applyOp cg op).timing_data) = true := by
  cases op with
  | start now label => exact start_preserves_wf cg now label h
  | stop now => exact stop_preserves_wf cg now h
  | split n1 n2 label => exact split_preserves_wf cg n1 n2 label h
  | reset => exact reset_preserves_wf cg

theorem runOps_preserves_wf (cg : Chronograph) (ops : List Op)
    (h : wellFormed cg.timing_data = true) :
    wellFormed ((runOps cg ops).timing_data) = true := by
  induction ops generalizing cg with
  | nil => exact h
  | cons op rest ih =>
    exact ih (applyOp cg op) (applyOp_preserves_wf cg op h)

/-! ### Claim theorems -/

/-- C3: every operation among start, stop, split, reset preserves the
invariant that at most the last element of the splits sequence lacks a
stop value, and any sequence of such operations run from a well-formed
(in particular the initial empty) state keeps the invariant. -/
theorem C3_splits_invariant (cg : Chronograph) (op : Op) (ops : List Op)
    (h : wellFormed cg.timing_data = true) :
    wellFormed ((applyOp cg op).timing_data) = true
    ∧ wellFormed ((runOps cg ops).timing_data) = true :=
  ⟨applyOp_preserves_wf cg op h, runOps_preserves_wf cg ops h⟩

theorem C3_witness :
    wellFormed ((applyOp (mkChronograph (some "x") defaultOpts)
      (Op.start 0 none)).timing_data) = true
    ∧ wellFormed ((runOps (mkChronograph (some "x") defaultOpts)
      [Op.start 0 none, Op.stop 1, Op.split 2 2 (some "a"), Op.reset]).timing_data) = true :=
  C3_splits_invariant (mkChronograph (some "x") defaultOpts)
    (Op.start 0 none)
    [Op.start 0 none, Op.stop 1, Op.split 2 2 (some "a"), Op.reset]
    rfl

/-- C4: calling start while Running fails and leaves the splits sequence
unchanged; with throw_exceptions off it emits the warning through the
sink and returns False, with throw_exceptions on it raises a
ChronographError, in both cases performing no state change. -/
theorem C4_start_while_running (cg : Chronograph) (now : Int) (label : Option String)
    (h : isIdle cg.timing_data = false) :
    (cg.throw_exceptions = false →
      cg.start now label = ⟨cg, PyResult.ok false, [startWarnMsg cg.header]⟩)
    ∧ (cg.throw_exceptions = true →
      cg.start now label =
        ⟨cg, PyResult.exc (PyExc.chronographError (startWarnMsg cg.header)), []⟩)
    ∧ (cg.start now label).cg.timing_data = cg.timing_data := by
  refine ⟨?_, ?_, ?_⟩
  · intro ht
    simp [Chronograph.start, h, ht]
  · intro ht
    simp [Chronograph.start, h, ht]
  · rw [start_of_running_cg cg now label h]

theorem C4_witness :
    (Chronograph.mk (some "x") "x" [⟨0, none, "1"⟩] 0 false).start 5 none =
      ⟨Chronograph.mk (some "x") "x" [⟨0, none, "1"⟩] 0 false, PyResult.ok false,
       [startWarnMsg "x"]⟩
    ∧ (Chronograph.mk (some "x") "x" [⟨0, none, "1"⟩] 0 true).start 5 none =
      ⟨Chronograph.mk (some "x") "x" [⟨0, none, "1"⟩] 0 true,
       PyResult.exc (PyExc.chronographError (startWarnMsg "x")), []⟩ :=
  ⟨(C4_start_while_running (Chronograph.mk (some "x") "x" [⟨0, none, "1"⟩] 0 false)
      5 none (by decide)).1 rfl,
   (C4_start_while_running (Chronograph.mk (some "x") "x" [⟨0, none, "1"⟩] 0 true)
      5 none (by decide)).2.1 rfl⟩

/-- C10: stop never raises, in any state and under any error policy; when
the Chronograph is Idle it emits the warning through the sink and returns
False leaving the object unchanged, even with throw_exceptions on, while
start under throw_exceptions does raise in the symmetric invalid state. -/
theorem C10_stop_never_raises (cg : Chronograph) (now : Int) :
    (∀ e, (cg.stop now).ret ≠ PyResult.exc e)
    ∧ (isIdle cg.timing_data = true →
        cg.stop now = ⟨cg, PyResult.ok false, [stopWarnMsg cg.header]⟩)
    ∧ (cg.throw_exceptions = true → isIdle cg.timing_data = false →
        (cg.start now none).ret =
          PyResult.exc (PyExc.chronographError (startWarnMsg cg.header))) := by
  refine ⟨stop_never_raises cg now, stop_of_idle cg now, ?_⟩
  intro ht hr
  simp [Chronograph.start, hr, ht]

theorem C10_witness :
    (Chronograph.mk (some "x") "x" [⟨0, some 1, "1"⟩] 0 true).stop 5 =
      ⟨Chronograph.mk (some "x") "x" [⟨0, some 1, "1"⟩] 0 true, PyResult.ok false,
       [stopWarnMsg "x"]⟩
    ∧ ((Chronograph.mk (some "x") "x" [⟨0, none, "1"⟩] 0 true).start 5 none).ret =
      PyResult.exc (PyExc.chronographError (startWarnMsg "x")) :=
  ⟨(C10_stop_never_raises (Chronograph.mk (some "x") "x" [⟨0, some 1, "1"⟩] 0 true)
      5).2.1 (by decide),
   (C10_stop_never_raises (Chronograph.mk (some "x") "x" [⟨0, none, "1"⟩] 0 true)
      5).2.2 rfl (by decide)⟩

/-- C9: a successful start without an explicit label gives the new split
the label str(len(splits)+1), the 1-based ordinal computed before
appending. -/
theorem C9_default_label (cg : Chronograph) (now : Int)
    (h : isIdle cg.timing_data = true) :
    (cg.start now none).ret = PyResult.ok true
    ∧ (cg.start now none).cg.timing_data =
        cg.timing_data ++ [⟨now, none, toString (cg.timing_data.length + 1)⟩] := by
  rw [start_of_idle cg now none h]
  exact ⟨rfl, rfl⟩

theorem C9_witness :
    ((mkChronograph (some "x") defaultOpts).start 0 none).cg.timing_data =
      [⟨0, none, "1"⟩]
    ∧ (((mkChronograph (some "x") defaultOpts).start 0 none).cg.stop 4).cg.timing_data =
      [⟨0, some 4, "1"⟩] :=
  ⟨((C9_default_label (mkChronograph (some "x") defaultOpts) 0 rfl).2).trans (by decide),
   by decide⟩

/-- C7: get_split_time returns stop - start when a stop time is present;
on an open record it raises a ChronographError when allow_still_running
is off and substitutes the current clock value (a non-negative duration
whenever the clock is past the start time) when it is on. -/
theorem C7_get_split_time (sd : SplitRecord) (now : Int) :
    (∀ s, sd.stop = some s → ∀ allow,
      get_split_time sd now allow = PyResult.ok (s - sd.start))
    ∧ (sd.stop = none → ∃ msg,
        get_split_time sd now false = PyResult.exc (PyExc.chronographError msg))
    ∧ (sd.stop = none →
        get_split_time sd now true = PyResult.ok (now - sd.start))
    ∧ (sd.stop = none → sd.start ≤ now → ∃ d,
        get_split_time sd now true = PyResult.ok d ∧ 0 ≤ d) := by
  refine ⟨?_, ?_, ?_, ?_⟩
  · intro s hs allow
    simp [get_split_time, hs]
  · intro hs
    exact ⟨"Cannot get split data; make sure \x27stop\x27 is defined or use \x27allow_still_running\x27 option.",
      by simp [get_split_time, hs]⟩
  · intro hs
    simp [get_split_time, hs]
  · intro hs hle
    exact ⟨now - sd.start, by simp [get_split_time, hs], by omega⟩

theorem C7_witness :
    get_split_time ⟨2, some 7, "a"⟩ 0 false = PyResult.ok (7 - 2)
    ∧ (∃ msg, get_split_time ⟨2, none, "a"⟩ 9 false =
        PyResult.exc (PyExc.chronographError msg))
    ∧ (∃ d, get_split_time ⟨2, none, "a"⟩ 9 true = PyResult.ok d ∧ 0 ≤ d) :=
  ⟨(C7_get_split_time ⟨2, some 7, "a"⟩ 0).1 7 rfl false,
   (C7_get_split_time ⟨2, none, "a"⟩ 9).2.1 rfl,
   (C7_get_split_time ⟨2, none, "a"⟩ 9).2.2.2 rfl (by decide)⟩

/-- C6: total_elapsed_time is the sum over all splits of
(stop or now) - start, i.e. the sum of the per-record durations that
get_split_time computes with still-running substitution allowed. -/
theorem C6_total_elapsed_time (cg : Chronograph) (now : Int) :
    total_elapsed_time cg now =
      (cg.timing_data.map (fun t =>
        match get_split_time t now true with
        | PyResult.ok d => d
        | PyResult.exc _ => 0)).sum := by
  have hf : ∀ t : SplitRecord,
      (match get_split_time t now true with
       | PyResult.ok d => d
       | PyResult.exc _ => 0) = (t.stop.getD now) - t.start := by
    intro t
    cases h : t.stop <;> simp [get_split_time, h]
  have hfold : ∀ (l : List SplitRecord) (a : Int),
      l.foldl (fun elapsed t => elapsed + ((t.stop.getD now) - t.start)) a =
        a + (l.map (fun t => (t.stop.getD now) - t.start)).sum := by
    intro l
    induction l with
    | nil => intro a; simp
    | cons t rest ih =>
      intro a
      simp only [List.foldl_cons, List.map_cons, List.sum_cons, ih]
      ring
  simp only [hf, total_elapsed_time, hfold, zero_add]

/-- C2 (code bug): reset clears the splits and a subsequent start
succeeds, but it returns False below verbosity 2 and raises an
IndexError at verbosity 2 or more, because the source formats
timing_data[-1] of the list it has just cleared and its return True sits
inside that verbosity branch; the spec says reset always reports true
and only emits a message at verbosity at least 2. -/
theorem C2_reset_divergence :
    (Chronograph.mk (some "x") "x" [⟨0, some 1, "1"⟩] 0 false).reset =
      ⟨Chronograph.mk (some "x") "x" [] 0 false, PyResult.ok false, []⟩
    ∧ (Chronograph.mk (some "x") "x" [⟨0, some 1, "1"⟩] 2 false).reset =
      ⟨Chronograph.mk (some "x") "x" [] 2 false, PyResult.exc PyExc.indexError, []⟩
    ∧ (∀ cg : Chronograph, cg.reset.cg.timing_data = [])
    ∧ (∀ (cg : Chronograph) (now : Int) (label : Option String),
        (cg.reset.cg.start now label).ret = PyResult.ok true) := by
  refine ⟨by decide, by decide, ?_, ?_⟩
  · intro cg
    rw [reset_cg]
  · intro cg now label
    have hidle : isIdle cg.reset.cg.timing_data = true := by
      rw [reset_cg]
      rfl
    rw [start_of_idle _ now label hidle]

/-- C5: split is stop followed, only on success, by start: when stop
succeeds split equals their sequential composition (state, returned
value and sink output), and when stop fails split fails without starting
anything, leaving the splits sequence unchanged. -/
theorem C5_split_is_stop_then_start (cg : Chronograph) (n1 n2 : Int)
    (label : Option String) :
    ((cg.stop n1).ret = PyResult.ok true →
      cg.split n1 n2 label =
        ⟨((cg.stop n1).cg.start n2 label).cg, ((cg.stop n1).cg.start n2 label).ret,
         (cg.stop n1).msgs ++ ((cg.stop n1).cg.start n2 label).msgs⟩)
    ∧ ((cg.stop n1).ret = PyResult.ok false →
        cg.split n1 n2 label = cg.stop n1
        ∧ (cg.split n1 n2 label).cg.timing_data = cg.timing_data
        ∧ (cg.split n1 n2 label).ret = PyResult.ok false) := by
  constructor
  · intro hr
    simp only [Chronograph.split, hr]
  · intro hr
    have hsplit : cg.split n1 n2 label = cg.stop n1 := by
      simp only [Chronograph.split, hr]
    refine ⟨hsplit, ?_, ?_⟩
    · rw [hsplit, stop_fail_cg cg n1 hr]
    · rw [hsplit, hr]

theorem C5_witness :
    (Chronograph.mk (some "x") "x" [⟨0, none, "1"⟩] 0 false).split 3 3 (some "b") =
      ⟨(((Chronograph.mk (some "x") "x" [⟨0, none, "1"⟩] 0 false).stop 3).cg.start 3
          (some "b")).cg,
       (((Chronograph.mk (some "x") "x" [⟨0, none, "1"⟩] 0 false).stop 3).cg.start 3
          (some "b")).ret,
       ((Chronograph.mk (some "x") "x" [⟨0, none, "1"⟩] 0 false).stop 3).msgs ++
         (((Chronograph.mk (some "x") "x" [⟨0, none, "1"⟩] 0 false).stop 3).cg.start 3
            (some "b")).msgs⟩
    ∧ ((Chronograph.mk (some "x") "x" [] 0 false).split 3 3 (some "b") =
        (Chronograph.mk (some "x") "x" [] 0 false).stop 3
      ∧ ((Chronograph.mk (some "x") "x" [] 0 false).split 3 3
          (some "b")).cg.timing_data = []
      ∧ ((Chronograph.mk (some "x") "x" [] 0 false).split 3 3 (some "b")).ret =
          PyResult.ok false) :=
  ⟨(C5_split_is_stop_then_start (Chronograph.mk (some "x") "x" [⟨0, none, "1"⟩] 0 false)
      3 3 (some "b")).1 (by decide),
   (C5_split_is_stop_then_start (Chronograph.mk (some "x") "x" [] 0 false)
      3 3 (some "b")).2 (by decide)⟩

theorem regFind_append_of_notfound (reg : Registry) (name : String) (cg : Chronograph)
    (h : regFind reg name = none) :
    regFind (reg ++ [(name, cg)]) name = some cg := by
  induction reg with
  | nil => simp [regFind]
  | cons p rest ih =>
    obtain ⟨k, v⟩ := p
    by_cases hk : k = name
    · exfalso
      simp [regFind, hk] at h
    · have h' : regFind rest name = none := by
        simpa [regFind, hk] using h
      simpa [regFind, hk] using ih h'

/-- C8: get_chronograph constructs and inserts a new Chronograph with the
supplied options only when the name is absent, returns the pre-existing
object unchanged when it is present (ignoring the later options), and two
sequential calls with the same name yield the same Chronograph. -/
theorem C8_get_chronograph (reg : Registry) (name : String)
    (opts opts2 : ChronoOptions) (now now2 : Int) :
    (regFind reg name = none →
      get_chronograph reg name opts now =
        ((createChronograph (some name) opts now).1,
         reg ++ [(name, (createChronograph (some name) opts now).1)]))
    ∧ (∀ cg, regFind reg name = some cg →
        get_chronograph reg name opts now = (cg, reg))
    ∧ get_chronograph (get_chronograph reg name opts now).2 name opts2 now2 =
        ((get_chronograph reg name opts now).1,
         (get_chronograph reg name opts now).2) := by
  refine ⟨?_, ?_, ?_⟩
  · intro h
    simp [get_chronograph, h]
  · intro cg h
    simp [get_chronograph, h]
  · cases hr : regFind reg name with
    | some cg => simp [get_chronograph, hr]
    | none =>
      have h1 : get_chronograph reg name opts now =
          ((createChronograph (some name) opts now).1,
           reg ++ [(name, (createChronograph (some name) opts now).1)]) := by
        simp [get_chronograph, hr]
      rw [h1]
      simp [get_chronograph, regFind_append_of_notfound reg name _ hr]

theorem C8_witness :
    get_chronograph ([] : Registry) "x" defaultOpts 0 =
      (Chronograph.mk (some "x") "x" [] 0 false,
       [("x", Chronograph.mk (some "x") "x" [] 0 false)])
    ∧ get_chronograph [("x", Chronograph.mk (some "x") "x" [] 0 false)] "x"
        ⟨5, false, true⟩ 9 =
      (Chronograph.mk (some "x") "x" [] 0 false,
       [("x", Chronograph.mk (some "x") "x" [] 0 false)]) :=
  ⟨((C8_get_chronograph ([] : Registry) "x" defaultOpts defaultOpts 0 0).1 rfl).trans
      (by decide),
   (C8_get_chronograph [("x", Chronograph.mk (some "x") "x" [] 0 false)] "x"
      ⟨5, false, true⟩ defaultOpts 9 9).2.1 _ rfl⟩

theorem start_ok_running_after (cg : Chronograph) (now : Int) (label : Option String)
    (h : (cg.start now label).ret = PyResult.ok true) :
    isIdle (cg.start now label).cg.timing_data = false := by
  have hidle := start_ret_ok_true_imp cg now label h
  rw [start_of_idle cg now label hidle]
  simp [isIdle_concat]

/-- C1 (counterexample to the claim as stated): with an empty registry
and default options, a decorated call whose wrapped callable raises
propagates the callable exception, but the Chronograph registered under
the function name is left with an open last split, i.e. Running: stop()
was not executed on this exit path. -/
theorem C1_counterexample :
    (decorated_call ([] : Registry) "f" none defaultOpts 0 1 2
      (CallOutcome.exc (A := Int))).2 = CallResult.funcExc
    ∧ regFind (decorated_call ([] : Registry) "f" none defaultOpts 0 1 2
        (CallOutcome.exc (A := Int))).1 "f" =
      some (Chronograph.mk (some "f") "f" [⟨1, none, "1"⟩] 0 false)
    ∧ isIdle [(⟨1, none, "1"⟩ : SplitRecord)] = false :=
  ⟨by decide, by decide, by decide⟩

/-- C1 (amended): in a decorated call whose start() succeeds, a normal
return of the wrapped callable propagates the value unchanged and
executes stop(), leaving the resolved Chronograph Idle; a raising wrapped
callable propagates its own error unchanged but skips stop(), leaving the
resolved Chronograph Running (the source wraps no try/finally around the
call). -/
theorem C1_decorator_amended {A : Type} (reg : Registry) (fname : String)
    (kwName : Option String) (opts : ChronoOptions) (t1 t2 t3 : Int) (a : A)
    (hok : ((get_chronograph reg (kwName.getD fname) opts t1).1.start t2 none).ret =
      PyResult.ok true) :
    decorated_call reg fname kwName opts t1 t2 t3 (CallOutcome.ok a) =
      (updateRegistry (get_chronograph reg (kwName.getD fname) opts t1).2
        (kwName.getD fname)
        (((get_chronograph reg (kwName.getD fname) opts t1).1.start t2 none).cg.stop
          t3).cg,
       CallResult.ok a)
    ∧ (((get_chronograph reg (kwName.getD fname) opts t1).1.start t2 none).cg.stop
        t3).ret = PyResult.ok true
    ∧ isIdle ((((get_chronograph reg (kwName.getD fname) opts t1).1.start t2
        none).cg.stop t3).cg.timing_data) = true
    ∧ decorated_call reg fname kwName opts t1 t2 t3 (CallOutcome.exc (A := A)) =
      (updateRegistry (get_chronograph reg (kwName.getD fname) opts t1).2
        (kwName.getD fname)
        ((get_chronograph reg (kwName.getD fname) opts t1).1.start t2 none).cg,
       CallResult.funcExc)
    ∧ isIdle (((get_chronograph reg (kwName.getD fname) opts t1).1.start t2
        none).cg.timing_data) = false := by
  have hrun := start_ok_running_after
    (get_chronograph reg (kwName.getD fname) opts t1).1 t2 none hok
  refine ⟨?_, stop_of_running_ret _ t3 hrun, isIdle_after_stop _ t3 hrun, ?_, hrun⟩
  · simp only [decorated_call, hok]
  · simp only [decorated_call, hok]

theorem C1_decorator_witness :
    decorated_call ([] : Registry) "f" none defaultOpts 0 1 2
      (CallOutcome.ok (42 : Int)) =
      ([("f", Chronograph.mk (some "f") "f" [⟨1, some 2, "1"⟩] 0 false)],
       CallResult.ok 42)
    ∧ isIdle (((get_chronograph ([] : Registry) "f" defaultOpts 0).1.start 1
        none).cg.timing_data) = false :=
  ⟨((C1_decorator_amended ([] : Registry) "f" none defaultOpts 0 1 2 (42 : Int)
      (by decide)).1).trans (by decide),
   (C1_decorator_amended ([] : Registry) "f" none defaultOpts 0 1 2 (42 : Int)
      (by decide)).2.2.2.2⟩

end Chrono
